import Mathlib

/-!
Verification of the channel-state reconciliation engine of fiber-dashboard
(`src/pg_write/operates.rs`, with supporting types from `src/types.rs` and
`src/lib.rs`).

The effectful tracing code is shallowly embedded as pure functions over an
RPC oracle (`Chain`): every RPC call in the source is wrapped in an
unbounded-retry loop (`loop { ...; sleep }`) and `get_transaction`'s result
is `unwrap()`ed, so a tracing task that completes observes, for each request,
exactly the value the indexer eventually served; the oracle records those
served values.  The outer search loop of `commitment_branch` need not
terminate for an adversarial indexer, so it is embedded with explicit fuel
(`none` = fuel exhausted / the panicking `unwrap` paths).  The sequence of
`state` assignments made to the in-flight `ChannelStateUpdate` is additionally
recorded in a ghost log (`List DBState`) so that ordering properties about the
internally-applied states can be stated; the log has no influence on any
computed value.
-/

namespace FiberDashboard

/-- Byte strings (`ckb_types::H256`, 32-byte hashes). Only equality of these
values is ever used by the engine, so they are modelled as lists of bytes. -/
abbrev H256 := List Nat

/-- Byte strings (`ckb_jsonrpc_types::JsonBytes`). -/
abbrev JsonBytes := List Nat

/-- Block numbers (`ckb_jsonrpc_types::BlockNumber`, a u64). -/
abbrev BlockNumber := Nat

/-- The network tag (`src/lib.rs`, `enum Network`). -/
inductive Network where
  | Mainnet
  | Testnet
deriving DecidableEq, Repr

/-- Script hash type (`ckb_jsonrpc_types::ScriptHashType`); the engine only
ever builds scripts with hash type `Type`. -/
inductive ScriptHashType where
  | data
  | type
  | data1
deriving DecidableEq, Repr

/-- A lock script (`ckb_jsonrpc_types::Script`). -/
structure Script where
  code_hash : H256
  hash_type : ScriptHashType
  args : JsonBytes
deriving DecidableEq, Repr

/-- A transaction output (`ckb_jsonrpc_types::CellOutput`); the tracing code
only inspects `lock` (and `capacity` during the genesis trace). -/
structure CellOutput where
  capacity : Nat
  lock : Script
deriving DecidableEq, Repr

/-- The inner payload of a fetched transaction: the fields of
`ckb_jsonrpc_types::Transaction` read by the engine. -/
structure Transaction where
  outputs : List CellOutput
  outputs_data : List JsonBytes
  witnesses : List JsonBytes
deriving DecidableEq, Repr

/-- A fetched transaction (`ckb_jsonrpc_types::TransactionView`). -/
structure TransactionView where
  hash : H256
  inner : Transaction
deriving DecidableEq, Repr

/-- A block header; the engine only reads `header.inner.timestamp.value()`. -/
structure Header where
  timestamp : Nat
deriving DecidableEq, Repr

/-- Cell role inside a grouped search result (`src/types.rs`, `CellType`). -/
inductive CellType where
  | input
  | output
deriving DecidableEq, Repr

/-- A grouped search result (`src/types.rs`, `TxWithCells`). -/
structure TxWithCells where
  tx_hash : H256
  block_number : BlockNumber
  tx_index : Nat
  cells : List (CellType × Nat)
deriving DecidableEq, Repr

/-- An ungrouped search result (`src/types.rs`, `TxWithCell`). -/
structure TxWithCell where
  tx_hash : H256
  block_number : BlockNumber
  tx_index : Nat
  io_index : Nat
  io_type : CellType
deriving DecidableEq, Repr

/-- A search result entry (`src/types.rs`, `enum Tx`). -/
inductive Tx where
  | Ungrouped (tx : TxWithCell)
  | Grouped (tx : TxWithCells)
deriving DecidableEq, Repr

/-- Script type of a search (`src/types.rs`, `ScriptType`). -/
inductive ScriptType where
  | lock
  | type
deriving DecidableEq, Repr

/-- Search mode (`src/types.rs`, `IndexerScriptSearchMode`). -/
inductive IndexerScriptSearchMode where
  | prefixMode
  | exactMode
deriving DecidableEq, Repr

/-- Search ordering (`src/types.rs`, `Order`). -/
inductive Order where
  | Desc
  | Asc
deriving DecidableEq, Repr

/-- Search filter (`src/types.rs`, `SearchKeyFilter`); block ranges are kept
as a pair. -/
structure SearchKeyFilter where
  script : Option Script
  script_len_range : Option (Nat × Nat)
  output_data_len_range : Option (Nat × Nat)
  output_capacity_range : Option (Nat × Nat)
  block_range : Option (BlockNumber × BlockNumber)
deriving DecidableEq, Repr

/-- The constructor `SearchKeyFilter::block_range(start, end)`. -/
def SearchKeyFilter.blockRange (start end_ : BlockNumber) : SearchKeyFilter :=
  { script := none, script_len_range := none, output_data_len_range := none,
    output_capacity_range := none, block_range := some (start, end_) }

/-- Search key (`src/types.rs`, `SearchKey`). -/
structure SearchKey where
  script : Script
  script_type : ScriptType
  script_search_mode : Option IndexerScriptSearchMode
  filter : Option SearchKeyFilter
  with_data : Option Bool
  group_by_transaction : Option Bool
deriving DecidableEq, Repr

/-- The funding/commitment code hashes, resolved once from the environment at
process start (`src/types.rs`, the four `LazyLock<H256>` statics). -/
structure CodeHashConfig where
  mainnetFunding : H256
  testnetFunding : H256
  mainnetCommitment : H256
  testnetCommitment : H256
deriving DecidableEq, Repr

/-- Resolves the commitment code hash for a network (the per-network match on
`MAINNET_COMMITMENT_CODE_HASH` / `TESTNET_COMMITMENT_CODE_HASH`). -/
def commitmentCodeHash (cfg : CodeHashConfig) (net : Network) : H256 :=
  match net with
  | .Mainnet => cfg.mainnetCommitment
  | .Testnet => cfg.testnetCommitment

/-- The funding lock script (`src/types.rs`, `fn funding_script`). -/
def funding_script (cfg : CodeHashConfig) (net : Network) (args : JsonBytes) : Script :=
  { code_hash := match net with
      | .Mainnet => cfg.mainnetFunding
      | .Testnet => cfg.testnetFunding,
    hash_type := .type,
    args := args }

/-- The commitment lock script (`src/types.rs`, `fn commitment_script`). -/
def commitment_script (cfg : CodeHashConfig) (net : Network) (args : JsonBytes) : Script :=
  { code_hash := commitmentCodeHash cfg net,
    hash_type := .type,
    args := args }

/-- The RPC oracle: the value each (retried-until-success) RPC call of a
completed trace eventually observed.  `get_transactions` returns the `objects`
of the result page for a `(search_key, order, limit)` request. -/
structure Chain where
  get_transaction : H256 → TransactionView
  get_header_by_number : BlockNumber → Header
  get_transactions : SearchKey → Order → Nat → List Tx

/-- The persisted state enum (`operates.rs`, `enum DBState`). -/
inductive DBState where
  | Open
  | ClosedWaitingOnchainSettlement
  | ClosedCooperative
  | ClosedUncooperative
deriving DecidableEq, Repr

/-- Serialisation of a `DBState` (`operates.rs`, `DBState::to_sql`). -/
def DBState.to_sql : DBState → String
  | .Open => "open"
  | .ClosedWaitingOnchainSettlement => "closed_waiting_onchain_settlement"
  | .ClosedCooperative => "closed_cooperative"
  | .ClosedUncooperative => "closed_uncooperative"

/-- Parsing of a `DBState` (`operates.rs`, `impl FromStr for DBState`). -/
def DBState.from_str (s : String) : Except String DBState :=
  match s with
  | "open" => .ok .Open
  | "closed_waiting_onchain_settlement" => .ok .ClosedWaitingOnchainSettlement
  | "closed_cooperative" => .ok .ClosedCooperative
  | "closed_uncooperative" => .ok .ClosedUncooperative
  | _ => .error ("Invalid DBState string: " ++ s)

/-- The in-memory lifecycle state (`operates.rs`, `enum State`). -/
inductive State where
  | Funding (tx_hash : H256) (block_number : BlockNumber) (funding_args : JsonBytes)
  | ClosedWaitingOnchainSettlement (tx_hash : H256) (block_number : BlockNumber)
      (commitment_args : JsonBytes)
  | ClosedCooperative
  | ClosedUncooperative
deriving DecidableEq, Repr

/-- The per-channel entry of the in-memory store (`operates.rs`,
`struct ChannelState`). -/
structure ChannelState where
  net : Network
  state : State
deriving DecidableEq, Repr

/-- One history entry of a `ChannelStateUpdate`:
`(tx_hash, block_number, timestamp, witness_args, commitment_args)`. -/
abbrev TxRecord := H256 × BlockNumber × Nat × Option JsonBytes × Option JsonBytes

instance : DecidableEq TxRecord :=
  inferInstanceAs (DecidableEq (List Nat × Nat × Nat × Option (List Nat) × Option (List Nat)))

/-- The per-pass per-channel change set (`operates.rs`,
`struct ChannelStateUpdate`). -/
structure ChannelStateUpdate where
  outpoint : JsonBytes
  state : DBState
  last_commit : Nat
  last_block_number : BlockNumber
  last_commitment_args : Option JsonBytes
  txs : List TxRecord
deriving DecidableEq, Repr

/-- The result accumulator of one tracing task (`operates.rs`,
`enum UpdateType`). -/
inductive UpdateType where
  | Nothing
  | Update (net : Network) (outpoint : JsonBytes) (csu : ChannelStateUpdate)
deriving DecidableEq, Repr

/-- The `let current_state` computation of the funding arm and the `csu.state`
projection used throughout: the `DBState` currently carried by a task result
(`DBState::Open` when nothing has been recorded yet). -/
def UpdateType.currentState : UpdateType → DBState
  | .Nothing => .Open
  | .Update _ _ s => s.state

/-- The history rows currently carried by a task result. -/
def UpdateType.txsOf : UpdateType → List TxRecord
  | .Nothing => []
  | .Update _ _ s => s.txs

/-- Scan of a spending transaction's outputs for one whose lock code hash is
the network's commitment code hash (the `find_map` over `new_tx.inner.outputs`
in `operates.rs`, appearing in the funding stage, `commitment_branch` and the
genesis trace). -/
def findCommitmentArgs (code_hash : H256) (tx : TransactionView) : Option JsonBytes :=
  tx.inner.outputs.findSome? fun output =>
    if output.lock.code_hash = code_hash then some output.lock.args else none

/-- The witness extraction of `commitment_branch`: the `for (ty, idx) in
tc.cells` loop keeps the witness looked up for the last `Input` cell (the
lookup itself may miss, in which case `None` is kept). -/
def lastInputWitness (tx : TransactionView) (cells : List (CellType × Nat)) :
    Option JsonBytes :=
  cells.foldl
    (fun w c =>
      match c.1 with
      | .input => tx.inner.witnesses.get? c.2
      | .output => w)
    none

/-- The funding-stage update for a spend with no commitment output
(`operates.rs` lines 786-820, the `None` arm): both the `Nothing` and the
`Update` arm of the source `match` are mirrored. -/
def fundingCooperativeSet (net : Network) (outpoint : JsonBytes) (txh : H256)
    (bn : BlockNumber) (ts : Nat) : UpdateType → UpdateType
  | .Nothing =>
      .Update net outpoint
        { outpoint := outpoint, state := .ClosedCooperative, last_commit := ts,
          last_block_number := bn, last_commitment_args := none,
          txs := [(txh, bn, ts, none, none)] }
  | .Update n0 o0 s =>
      .Update n0 o0
        { s with
          state := .ClosedCooperative, last_block_number := bn,
          last_commit := ts, txs := s.txs ++ [(txh, bn, ts, none, none)] }

/-- The funding-stage update for a spend that has a commitment output
(`operates.rs` lines 821-855, the `Some` arm). -/
def fundingWaitingSet (net : Network) (outpoint : JsonBytes) (txh : H256)
    (bn : BlockNumber) (ts : Nat) (args : JsonBytes) : UpdateType → UpdateType
  | .Nothing =>
      .Update net outpoint
        { outpoint := outpoint, state := .ClosedWaitingOnchainSettlement,
          last_commit := ts, last_block_number := bn,
          last_commitment_args := some args,
          txs := [(txh, bn, ts, none, some args)] }
  | .Update n0 o0 s =>
      .Update n0 o0
        { s with
          state := .ClosedWaitingOnchainSettlement,
          last_block_number := bn, last_commitment_args := some args,
          last_commit := ts, txs := s.txs ++ [(txh, bn, ts, none, some args)] }

/-- The commitment-stage update for a spend with no further commitment output
(`operates.rs` lines 1080-1114, the `None` arm); note the `Update` arm leaves
`last_commitment_args` untouched, exactly as the source does. -/
def commitmentUncooperativeSet (net : Network) (outpoint : JsonBytes) (txh : H256)
    (bn : BlockNumber) (ts : Nat) (w : Option JsonBytes) : UpdateType → UpdateType
  | .Nothing =>
      .Update net outpoint
        { outpoint := outpoint, state := .ClosedUncooperative, last_commit := ts,
          last_block_number := bn, last_commitment_args := none,
          txs := [(txh, bn, ts, w, none)] }
  | .Update n0 o0 s =>
      .Update n0 o0
        { s with
          state := .ClosedUncooperative, last_block_number := bn,
          last_commit := ts, txs := s.txs ++ [(txh, bn, ts, w, none)] }

/-- The commitment-stage update for a spend carrying a further commitment
output (`operates.rs` lines 1116-1154, the `Some` arm). -/
def commitmentWaitingSet (net : Network) (outpoint : JsonBytes) (txh : H256)
    (bn : BlockNumber) (ts : Nat) (w : Option JsonBytes) (args : JsonBytes) :
    UpdateType → UpdateType
  | .Nothing =>
      .Update net outpoint
        { outpoint := outpoint, state := .ClosedWaitingOnchainSettlement,
          last_commit := ts, last_block_number := bn,
          last_commitment_args := some args,
          txs := [(txh, bn, ts, w, some args)] }
  | .Update n0 o0 s =>
      .Update n0 o0
        { s with
          state := .ClosedWaitingOnchainSettlement,
          last_block_number := bn, last_commit := ts,
          last_commitment_args := some args,
          txs := s.txs ++ [(txh, bn, ts, w, some args)] }

/-- The mutable locals of `commitment_branch`'s `for tx in txs.objects` loop,
plus the ghost log of applied `DBState` values. -/
structure PageAcc where
  exist_tx : List H256
  commitment_args : JsonBytes
  csus : UpdateType
  log : List DBState

/-- The body of `commitment_branch`'s inner `for tx in txs.objects` loop for
one search entry: ungrouped entries are ignored, already-seen hashes are
skipped, otherwise the transaction and header are fetched, the spent input's
witness extracted, the outputs scanned for the commitment code hash, and
`csus` (and, in the `Some` arm, `commitment_args`) updated. -/
def processTx (chain : Chain) (net : Network) (outpoint : JsonBytes)
    (code_hash : H256) (acc : PageAcc) : Tx → PageAcc
  | .Ungrouped _ => acc
  | .Grouped tc =>
    if acc.exist_tx.contains tc.tx_hash then acc
    else
      let new_tx := chain.get_transaction tc.tx_hash
      let header := chain.get_header_by_number tc.block_number
      let witness_args := lastInputWitness new_tx tc.cells
      match findCommitmentArgs code_hash new_tx with
      | none =>
          { exist_tx := acc.exist_tx ++ [tc.tx_hash],
            commitment_args := acc.commitment_args,
            csus := commitmentUncooperativeSet net outpoint tc.tx_hash
              tc.block_number header.timestamp witness_args acc.csus,
            log := acc.log ++ [.ClosedUncooperative] }
      | some a =>
          { exist_tx := acc.exist_tx ++ [tc.tx_hash],
            commitment_args := a,
            csus := commitmentWaitingSet net outpoint tc.tx_hash
              tc.block_number header.timestamp witness_args a acc.csus,
            log := acc.log ++ [.ClosedWaitingOnchainSettlement] }

/-- One full iteration body of `commitment_branch`'s outer loop: the indexer
search for the current commitment script over `[start, end]` (ascending,
limit 100, exact match, grouped), followed by the `for` loop over the page. -/
def pageFold (cfg : CodeHashConfig) (chain : Chain) (net : Network)
    (outpoint : JsonBytes) (code_hash : H256) (start end_ : BlockNumber)
    (args : JsonBytes) (exist_tx : List H256) (csus : UpdateType)
    (log : List DBState) : PageAcc :=
  let txs := chain.get_transactions
    { script := commitment_script cfg net args, script_type := .lock,
      script_search_mode := some .exactMode,
      filter := some (SearchKeyFilter.blockRange start end_),
      with_data := some false, group_by_transaction := some true }
    .Asc 100
  txs.foldl (processTx chain net outpoint code_hash)
    { exist_tx := exist_tx, commitment_args := args, csus := csus, log := log }

/-- The outer loop of `commitment_branch` (`operates.rs` lines 1002-1159),
embedded with fuel: each iteration breaks if the current commitment args has
already been searched, otherwise records it as searched and processes the
search page.  `none` means the fuel ran out before the loop broke.  The
initial call sites seed `exist_tx := [tx_hash]` and
`already_search_commitment := []`. -/
def commitment_branch (cfg : CodeHashConfig) (chain : Chain) (net : Network)
    (outpoint : JsonBytes) (start end_ : BlockNumber) (code_hash : H256) :
    Nat → JsonBytes → List H256 → List JsonBytes → UpdateType → List DBState →
    Option (UpdateType × List DBState)
  | 0, _, _, _, _, _ => none
  | fuel + 1, commitment_args, exist_tx, already_search_commitment, csus, log =>
    if already_search_commitment.contains commitment_args then some (csus, log)
    else
      let acc := pageFold cfg chain net outpoint code_hash start end_
        commitment_args exist_tx csus log
      commitment_branch cfg chain net outpoint start end_ code_hash fuel
        acc.commitment_args acc.exist_tx
        (already_search_commitment ++ [commitment_args]) acc.csus acc.log

/-- The spend scan of the funding stage (`operates.rs` lines 754-857): if the
funding search returned exactly two entries and the newest is grouped, fetch
the spending transaction and its header, scan its outputs for the network's
commitment code hash, and build the update (`ClosedCooperative` when no
commitment output exists, `ClosedWaitingOnchainSettlement` with the found
args otherwise); in every other case nothing is recorded. -/
def fundingSpendScan (cfg : CodeHashConfig) (chain : Chain) (net : Network)
    (outpoint : JsonBytes) (txs : List Tx) : UpdateType × List DBState :=
  let code_hash := commitmentCodeHash cfg net
  match txs with
  | [Tx.Grouped tc, _] =>
    let new_tx := chain.get_transaction tc.tx_hash
    let header := chain.get_header_by_number tc.block_number
    match findCommitmentArgs code_hash new_tx with
    | none =>
        (fundingCooperativeSet net outpoint tc.tx_hash tc.block_number
          header.timestamp .Nothing, [.ClosedCooperative])
    | some commitment_args =>
        (fundingWaitingSet net outpoint tc.tx_hash tc.block_number
          header.timestamp commitment_args .Nothing,
         [.ClosedWaitingOnchainSettlement])
  | _ => (.Nothing, [])

/-- The continuation of the funding stage (`operates.rs` lines 859-887): when
the spend scan left the channel `ClosedWaitingOnchainSettlement`, proceed
directly into `commitment_branch` using the recorded commitment args, the new
block number as the search start and the chain tip as the end; otherwise the
scan result is final. -/
def fundingContinue (cfg : CodeHashConfig) (chain : Chain) (net : Network)
    (outpoint : JsonBytes) (tip : BlockNumber) (fuel : Nat)
    (step : UpdateType × List DBState) : Option (UpdateType × List DBState) :=
  if step.1.currentState = DBState.ClosedWaitingOnchainSettlement then
    match step.1 with
    | .Update _ _ csu =>
      match csu.last_commitment_args, csu.txs.getLast? with
      | some commitment_args, some t =>
          commitment_branch cfg chain net outpoint csu.last_block_number tip
            (commitmentCodeHash cfg net) fuel commitment_args [t.1] []
            step.1 step.2
      | _, _ => none
    | .Nothing => none
  else some step

/-- The `State::Funding` arm of a tracing task (`operates.rs` lines 720-887):
search the funding script (descending, limit 100, exact match, grouped), scan
the unique spend if there is one, and continue into the commitment stage when
the spend produced a commitment cell. -/
def fundingStage (cfg : CodeHashConfig) (chain : Chain) (net : Network)
    (outpoint : JsonBytes) (funding_args : JsonBytes) (tip : BlockNumber)
    (fuel : Nat) : Option (UpdateType × List DBState) :=
  fundingContinue cfg chain net outpoint tip fuel
    (fundingSpendScan cfg chain net outpoint
      (chain.get_transactions
        { script := funding_script cfg net funding_args, script_type := .lock,
          script_search_mode := some .exactMode, filter := none,
          with_data := some false, group_by_transaction := some true }
        .Desc 100))

/-- The state-sequence shape asserted by the spec for one channel's trace
after `Funding`: some number of `ClosedWaitingOnchainSettlement` applications
followed by at most one terminal application, with nothing after the
terminal. -/
def specOrdered : List DBState → Bool
  | [] => true
  | DBState.ClosedWaitingOnchainSettlement :: rest => specOrdered rest
  | [DBState.ClosedCooperative] => true
  | [DBState.ClosedUncooperative] => true
  | _ => false

/-- Channels eligible for a periodic re-trace: the iteration of
`channel_tx_update` skips (`continue`) every channel whose stored state is
`ClosedCooperative` or `ClosedUncooperative` before spawning its task. -/
def eligibleChannels (channels : List (JsonBytes × ChannelState)) :
    List (JsonBytes × ChannelState) :=
  channels.filter fun p =>
    match p.2.state with
    | .ClosedCooperative => false
    | .ClosedUncooperative => false
    | _ => true

/-- The body of one spawned tracing task (`operates.rs` lines 716-927): the
terminal arms do nothing, the `Funding` arm runs the funding stage, and the
`ClosedWaitingOnchainSettlement` arm runs `commitment_branch` seeded from the
stored position, with the per-network indexer tip as the search end. -/
def channelTask (cfg : CodeHashConfig) (chain : Chain)
    (mainnet_tip testnet_tip : BlockNumber) (fuel : Nat)
    (outpoint : JsonBytes) (cs : ChannelState) :
    Option (UpdateType × List DBState) :=
  let tip := match cs.net with
    | .Mainnet => mainnet_tip
    | .Testnet => testnet_tip
  match cs.state with
  | .ClosedCooperative => some (.Nothing, [])
  | .ClosedUncooperative => some (.Nothing, [])
  | .Funding _ _ funding_args =>
      fundingStage cfg chain cs.net outpoint funding_args tip fuel
  | .ClosedWaitingOnchainSettlement tx_hash block_number commitment_args =>
      commitment_branch cfg chain cs.net outpoint block_number tip
        (commitmentCodeHash cfg cs.net) fuel commitment_args [tx_hash] []
        .Nothing []

/-- Collection of the task results of one pass (the `buffer_unordered` /
`filter_map` pipeline): `Nothing` results are dropped, `Update` results are
kept.  `none` propagates a task that did not complete. -/
def runTasks (cfg : CodeHashConfig) (chain : Chain)
    (mainnet_tip testnet_tip : BlockNumber) (fuel : Nat) :
    List (JsonBytes × ChannelState) →
    Option (List (Network × JsonBytes × ChannelStateUpdate))
  | [] => some []
  | p :: rest => do
    let (ut, _) ← channelTask cfg chain mainnet_tip testnet_tip fuel p.1 p.2
    let tail ← runTasks cfg chain mainnet_tip testnet_tip fuel rest
    match ut with
    | .Nothing => pure tail
    | .Update net outpoint csu => pure ((net, outpoint, csu) :: tail)

/-- The in-memory state written back for a finished update (`operates.rs`
lines 949-958): the two `unwrap()`s of the `ClosedWaitingOnchainSettlement`
arm and the `panic!` on `Open` are modelled as `none`. -/
def stateOfUpdate (csu : ChannelStateUpdate) : Option State :=
  match csu.state with
  | .ClosedCooperative => some .ClosedCooperative
  | .ClosedUncooperative => some .ClosedUncooperative
  | .ClosedWaitingOnchainSettlement =>
    match csu.txs.getLast?, csu.last_commitment_args with
    | some t, some a =>
        some (.ClosedWaitingOnchainSettlement t.1 csu.last_block_number a)
    | _, _ => none
  | .Open => none

/-- Application of the collected updates to the in-memory store (the
`for_each` of `channel_tx_update`); the `get_mut(..).unwrap()` requires the
outpoint to be present. -/
def applyUpdates (channels : List (JsonBytes × ChannelState)) :
    List (Network × JsonBytes × ChannelStateUpdate) →
    Option (List (JsonBytes × ChannelState))
  | [] => some channels
  | (_, outpoint, csu) :: rest => do
    let st ← stateOfUpdate csu
    if channels.any (fun p => p.1 = outpoint) then
      applyUpdates
        (channels.map fun p =>
          if p.1 = outpoint then (p.1, { p.2 with state := st }) else p)
        rest
    else none

/-- One history row of the channel-transaction table:
`(channel_outpoint, tx_hash, block_number, timestamp, witness_args,
commitment_args)`. -/
abbrev HistoryRow :=
  JsonBytes × H256 × BlockNumber × Nat × Option JsonBytes × Option JsonBytes

instance : DecidableEq HistoryRow :=
  inferInstanceAs (DecidableEq
    (List Nat × List Nat × Nat × Nat × Option (List Nat) × Option (List Nat)))

/-- The rows bound by `ChannelStateUpdate::txs_sql`: each update's outpoint is
paired with each of its history entries, and the batch is capped at
`65535 / 6` rows so that rows x 6 bound parameters stay within the Postgres
per-statement limit. -/
def ChannelStateUpdate.txsRows (updates : List ChannelStateUpdate) :
    List HistoryRow :=
  ((updates.flatMap fun cu =>
      cu.txs.map fun t => (cu.outpoint, t.1, t.2.1, t.2.2.1, t.2.2.2.1, t.2.2.2.2))
    ).take (65535 / 6)

/-- The genesis-trace channel record (`operates.rs`, `struct ChannelGroup`). -/
structure ChannelGroup where
  net : Network
  outpoint : JsonBytes
  funding_args : JsonBytes
  capacity : Nat
  create_time : Nat
  last_commit_time : Nat
  udt_value : Option Nat
  last_block_number : BlockNumber
  last_commitment_args : Option JsonBytes
  state : DBState
  txs : List TxRecord
deriving DecidableEq, Repr

/-- The rows bound by `ChannelGroup::txs_sql`: same pairing as
`ChannelStateUpdate.txsRows` but with no cap on the batch. -/
def ChannelGroup.txsRows (groups : List ChannelGroup) : List HistoryRow :=
  groups.flatMap fun cg =>
    cg.txs.map fun t => (cg.outpoint, t.1, t.2.1, t.2.2.1, t.2.2.2.1, t.2.2.2.2)

/-- The durable relational state touched by the pass: the channel-state table
(keyed by network and outpoint) and the append-only channel-transaction
history table. -/
structure Db where
  stateTable : List ((Network × JsonBytes) × ChannelStateUpdate)
  historyRows : List (Network × HistoryRow)
deriving DecidableEq, Repr

/-- The statements issued inside the pass transaction:
`ChannelStateUpdate::state_sql` (one UPDATE per update) and
`ChannelStateUpdate::txs_sql` (one batched INSERT). -/
inductive PgStmt where
  | stateSql (net : Network) (updates : List ChannelStateUpdate)
  | txsSql (net : Network) (updates : List ChannelStateUpdate)
deriving DecidableEq, Repr

/-- One UPDATE of `state_sql`: overwrite the row whose key matches; a missing
row is left missing (SQL UPDATE inserts nothing). -/
def updateStateRow (net : Network) (cu : ChannelStateUpdate)
    (tbl : List ((Network × JsonBytes) × ChannelStateUpdate)) :
    List ((Network × JsonBytes) × ChannelStateUpdate) :=
  tbl.map fun e => if e.1 = (net, cu.outpoint) then (e.1, cu) else e

/-- Effect of one statement on the durable state: `state_sql` overwrites
channel-state rows in place, `txs_sql` only appends history rows. -/
def applyStmt (db : Db) : PgStmt → Db
  | .stateSql net us =>
      { db with stateTable := us.foldl (fun t cu => updateStateRow net cu t) db.stateTable }
  | .txsSql net us =>
      { db with
        historyRows :=
          db.historyRows ++ (ChannelStateUpdate.txsRows us).map fun r => (net, r) }

/-- One relational transaction (the `pool.begin() .. conn.commit()` block):
statements run against a transaction-local view and become durable only if
every statement and the commit succeed; any failure aborts with nothing
applied.  The source `unwrap()`s every result, so a failure panics the pass:
that is the `Except.error` outcome. -/
def runPgTransaction (db : Db) (stmtFails : PgStmt → Bool) (commitFails : Bool)
    (stmts : List PgStmt) : Except Unit Db :=
  if stmts.any stmtFails then .error ()
  else if commitFails then .error ()
  else .ok (stmts.foldl applyStmt db)

/-- The statement groups of one pass (`operates.rs` lines 979-996): for each
network with a non-empty change set, a `state_sql` group then a `txs_sql`
group, all inside the single transaction. -/
def passStmts (mainnetUpdates testnetUpdates : List ChannelStateUpdate) :
    List PgStmt :=
  (if mainnetUpdates.isEmpty then []
   else [PgStmt.stateSql .Mainnet mainnetUpdates, PgStmt.txsSql .Mainnet mainnetUpdates]) ++
  (if testnetUpdates.isEmpty then []
   else [PgStmt.stateSql .Testnet testnetUpdates, PgStmt.txsSql .Testnet testnetUpdates])

/-- The persistence step of one pass: nothing at all happens when both change
sets are empty; otherwise one transaction carries both statement groups. -/
def persistPass (db : Db) (stmtFails : PgStmt → Bool) (commitFails : Bool)
    (mainnetUpdates testnetUpdates : List ChannelStateUpdate) : Except Unit Db :=
  if mainnetUpdates.isEmpty && testnetUpdates.isEmpty then .ok db
  else runPgTransaction db stmtFails commitFails
    (passStmts mainnetUpdates testnetUpdates)

/-- One periodic reconciliation pass (`operates.rs`, `fn channel_tx_update`,
with the two indexer tips already fetched): spawn a task per non-terminal
channel, collect the updates, write the new states into the in-memory store,
partition the updates by network, and run the persistence step.  The result
carries the new store, the collected updates, and the persistence outcome;
the store mutation happens before and regardless of persistence. -/
def channel_tx_update (cfg : CodeHashConfig) (chain : Chain)
    (mainnet_tip testnet_tip : BlockNumber) (fuel : Nat)
    (channels : List (JsonBytes × ChannelState)) (db : Db)
    (stmtFails : PgStmt → Bool) (commitFails : Bool) :
    Option (List (JsonBytes × ChannelState) ×
            List (Network × JsonBytes × ChannelStateUpdate) ×
            Except Unit Db) := do
  let ups ← runTasks cfg chain mainnet_tip testnet_tip fuel
    (eligibleChannels channels)
  let channels2 ← applyUpdates channels ups
  let mainnetUpdates := (ups.filter fun u => u.1 = Network.Mainnet).map fun u => u.2.2
  let testnetUpdates := (ups.filter fun u => u.1 = Network.Testnet).map fun u => u.2.2
  some (channels2, ups,
    persistPass db stmtFails commitFails mainnetUpdates testnetUpdates)

/-- Claim C10 helper: the four strings produced by `DBState.to_sql`. -/
def dbStateSpellings : List String :=
  ["open", "closed_waiting_onchain_settlement", "closed_cooperative",
   "closed_uncooperative"]

/-- Concrete configuration used by the witnesses: distinct funding and
commitment code hashes per network. -/
def cfgT : CodeHashConfig :=
  { mainnetFunding := [1], testnetFunding := [11],
    mainnetCommitment := [2], testnetCommitment := [12] }

/-- A spending transaction none of whose outputs carries the testnet
commitment code hash `[12]`. -/
def txNoCommit : TransactionView :=
  { hash := [21],
    inner :=
      { outputs := [{ capacity := 500,
                      lock := { code_hash := [99], hash_type := .type, args := [] } }],
        outputs_data := [], witnesses := [] } }

/-- The grouped search entry for `txNoCommit`. -/
def tcSpend : TxWithCells :=
  { tx_hash := [21], block_number := 120, tx_index := 0, cells := [] }

/-- Oracle for the C1 witness: the funding search returns exactly two grouped
entries, newest first, and the newest spend has no commitment output. -/
def chainC1 : Chain :=
  { get_transaction := fun _ => txNoCommit,
    get_header_by_number := fun _ => { timestamp := 777 },
    get_transactions := fun _ _ _ =>
      [Tx.Grouped tcSpend,
       Tx.Grouped { tx_hash := [20], block_number := 100, tx_index := 0, cells := [] }] }

/-- A transaction with one output locked by the testnet commitment code hash
`[12]` and the given args. -/
def txCommit (args : JsonBytes) : TransactionView :=
  { hash := [30],
    inner :=
      { outputs := [{ capacity := 400,
                      lock := { code_hash := [12], hash_type := .type, args := args } }],
        outputs_data := [], witnesses := [] } }

/-- First grouped entry of the commitment page at args `[187]`: its
transaction has no commitment output. -/
def tcPageA : TxWithCells :=
  { tx_hash := [31], block_number := 250, tx_index := 0, cells := [] }

/-- Second grouped entry of the same page: its transaction carries a
commitment output with args `[204]`. -/
def tcPageB : TxWithCells :=
  { tx_hash := [32], block_number := 300, tx_index := 0, cells := [] }

/-- Oracle exercising the commitment stage on a page whose first transaction
has no commitment output and whose second one does. -/
def chainC2 : Chain :=
  { get_transaction := fun h => if h = [32] then txCommit [204] else txNoCommit,
    get_header_by_number := fun _ => { timestamp := 888 },
    get_transactions := fun k _ _ =>
      if k.script.args = [187] then [Tx.Grouped tcPageA, Tx.Grouped tcPageB]
      else [] }

/-- The funding spend used by the funding-to-commitment oracle: spent at
block 100 into a commitment cell with args `[187]`. -/
def tcFund : TxWithCells :=
  { tx_hash := [41], block_number := 100, tx_index := 0, cells := [] }

/-- Oracle driving a full funding-stage trace: the funding search finds the
spend carrying commitment args `[187]`, and the commitment page at `[187]` is
the two-transaction page of `chainC2`. -/
def chainC5 : Chain :=
  { get_transaction := fun h =>
      if h = [41] then txCommit [187]
      else if h = [31] then txNoCommit
      else txCommit [204],
    get_header_by_number := fun _ => { timestamp := 888 },
    get_transactions := fun k _ _ =>
      if k.script.code_hash = [11] then
        [Tx.Grouped tcFund,
         Tx.Grouped { tx_hash := [40], block_number := 90, tx_index := 0, cells := [] }]
      else if k.script.args = [187] then [Tx.Grouped tcPageA, Tx.Grouped tcPageB]
      else [] }

/-- Oracle whose every search page is empty (the indexer reports no spends),
used to exercise the cycle guard. -/
def chainQuiet : Chain :=
  { get_transaction := fun _ => txNoCommit,
    get_header_by_number := fun _ => { timestamp := 1 },
    get_transactions := fun _ _ _ => [] }

/-- A tracing result belongs to an outpoint when both the tag and the update
record carry that outpoint. -/
def UpdateType.forOutpoint (u : UpdateType) (op : JsonBytes) : Prop :=
  match u with
  | .Nothing => True
  | .Update _ o csu => o = op ∧ csu.outpoint = op

/-- A genesis-trace record carrying 10923 history entries — one more than the
65535 / 6 = 10922 row cap of the per-pass insert. -/
def bigGroup : ChannelGroup :=
  { net := .Testnet, outpoint := [9], funding_args := [170], capacity := 0,
    create_time := 0, last_commit_time := 0, udt_value := none,
    last_block_number := 0, last_commitment_args := none, state := .Open,
    txs := List.replicate 10923 ([0], 0, 0, none, none) }

/-- The empty durable state. -/
def dbE : Db := { stateTable := [], historyRows := [] }

/-- A one-row update used by the persistence witnesses. -/
def csuW : ChannelStateUpdate :=
  { outpoint := [9], state := .ClosedCooperative, last_commit := 777,
    last_block_number := 120, last_commitment_args := none,
    txs := [([21], 120, 777, none, none)] }

/-- A store holding one channel that has already closed cooperatively. -/
def chsC3 : List (JsonBytes × ChannelState) :=
  [([9], { net := Network.Testnet, state := State.ClosedCooperative })]

end FiberDashboard

namespace FiberDashboard

/-- C10 — state-string round trip: parsing the string produced by `to_sql`
yields the original state, and `from_str` returns an error for any string
outside the four enum spellings, so every persisted state reads back
unambiguously at restart. -/
theorem dbstate_round_trip :
    (∀ s : DBState, DBState.from_str (DBState.to_sql s) = Except.ok s) ∧
    (∀ str : String, str ∉ dbStateSpellings →
      DBState.from_str str = Except.error ("Invalid DBState string: " ++ str)) := by
  constructor
  · intro s; cases s <;> rfl
  · intro str hstr
    unfold DBState.from_str
    split
    · simp [dbStateSpellings] at hstr
    · simp [dbStateSpellings] at hstr
    · simp [dbStateSpellings] at hstr
    · simp [dbStateSpellings] at hstr
    · rfl

/-- Witness for C10 at the concrete string "funding": it is outside the four
spellings and parsing it fails with the formatted error. -/
theorem dbstate_round_trip_witness :
    DBState.from_str (DBState.to_sql DBState.ClosedCooperative) =
        Except.ok DBState.ClosedCooperative ∧
    DBState.from_str "funding" = Except.error ("Invalid DBState string: " ++ "funding") :=
  ⟨dbstate_round_trip.1 DBState.ClosedCooperative,
   dbstate_round_trip.2 "funding" (by decide)⟩

/-- C1 — Funding-stage cooperative close: for a channel in `Funding`, if the
funding-script search returns exactly two entries, the newest entry is a
grouped record, and the spending transaction's outputs contain no output whose
lock code hash equals the network's commitment code hash, then the tracing
step produces exactly one update whose state is `ClosedCooperative` and whose
history list is the single row carrying that transaction's hash, its block
number, and no commitment args. -/
theorem funding_cooperative_close
    (cfg : CodeHashConfig) (chain : Chain) (net : Network)
    (outpoint funding_args : JsonBytes) (tip : BlockNumber) (fuel : Nat)
    (tc : TxWithCells) (t2 : Tx)
    (hsearch : chain.get_transactions
      { script := funding_script cfg net funding_args, script_type := .lock,
        script_search_mode := some .exactMode, filter := none,
        with_data := some false, group_by_transaction := some true }
      .Desc 100 = [Tx.Grouped tc, t2])
    (hno : findCommitmentArgs (commitmentCodeHash cfg net)
      (chain.get_transaction tc.tx_hash) = none) :
    fundingStage cfg chain net outpoint funding_args tip fuel =
      some (.Update net outpoint
        { outpoint := outpoint, state := .ClosedCooperative,
          last_commit := (chain.get_header_by_number tc.block_number).timestamp,
          last_block_number := tc.block_number, last_commitment_args := none,
          txs := [(tc.tx_hash, tc.block_number,
            (chain.get_header_by_number tc.block_number).timestamp, none, none)] },
        [DBState.ClosedCooperative]) := by
  unfold fundingStage
  rw [hsearch]
  unfold fundingSpendScan
  simp [hno, fundingCooperativeSet, fundingContinue, UpdateType.currentState]

/-- Setter lemma: the uncooperative update appends exactly one history row. -/
theorem commitmentUncooperativeSet_txsOf (net : Network) (op : JsonBytes)
    (txh : H256) (bn : BlockNumber) (ts : Nat) (w : Option JsonBytes)
    (csus : UpdateType) :
    (commitmentUncooperativeSet net op txh bn ts w csus).txsOf =
      csus.txsOf ++ [(txh, bn, ts, w, none)] := by
  cases csus <;> rfl

/-- Setter lemma: the waiting update appends exactly one history row. -/
theorem commitmentWaitingSet_txsOf (net : Network) (op : JsonBytes)
    (txh : H256) (bn : BlockNumber) (ts : Nat) (w : Option JsonBytes)
    (args : JsonBytes) (csus : UpdateType) :
    (commitmentWaitingSet net op txh bn ts w args csus).txsOf =
      csus.txsOf ++ [(txh, bn, ts, w, some args)] := by
  cases csus <;> rfl

/-- Setter lemma: the uncooperative update always carries state
`ClosedUncooperative`. -/
theorem commitmentUncooperativeSet_currentState (net : Network) (op : JsonBytes)
    (txh : H256) (bn : BlockNumber) (ts : Nat) (w : Option JsonBytes)
    (csus : UpdateType) :
    (commitmentUncooperativeSet net op txh bn ts w csus).currentState =
      DBState.ClosedUncooperative := by
  cases csus <;> rfl

/-- Setter lemma: the waiting update always carries state
`ClosedWaitingOnchainSettlement`. -/
theorem commitmentWaitingSet_currentState (net : Network) (op : JsonBytes)
    (txh : H256) (bn : BlockNumber) (ts : Nat) (w : Option JsonBytes)
    (args : JsonBytes) (csus : UpdateType) :
    (commitmentWaitingSet net op txh bn ts w args csus).currentState =
      DBState.ClosedWaitingOnchainSettlement := by
  cases csus <;> rfl

/-- Processing one search entry only ever extends the ghost log (with
commitment-stage states) and the history rows. -/
theorem processTx_ext (chain : Chain) (net : Network) (outpoint : JsonBytes)
    (code_hash : H256) (acc : PageAcc) (tx : Tx) :
    ∃ t u, (processTx chain net outpoint code_hash acc tx).log = acc.log ++ t ∧
      (processTx chain net outpoint code_hash acc tx).csus.txsOf =
        acc.csus.txsOf ++ u ∧
      ∀ s ∈ t, s = DBState.ClosedUncooperative ∨
        s = DBState.ClosedWaitingOnchainSettlement := by
  cases tx with
  | Ungrouped tx0 => exact ⟨[], [], by simp [processTx], by simp [processTx], by simp⟩
  | Grouped tc =>
    unfold processTx
    by_cases h : acc.exist_tx.contains tc.tx_hash
    · simp only [h, if_true]
      exact ⟨[], [], by simp, by simp, by simp⟩
    · simp only [h, if_false]
      cases hfind : findCommitmentArgs code_hash (chain.get_transaction tc.tx_hash) with
      | none =>
          refine ⟨[DBState.ClosedUncooperative],
            [(tc.tx_hash, tc.block_number,
              (chain.get_header_by_number tc.block_number).timestamp,
              lastInputWitness (chain.get_transaction tc.tx_hash) tc.cells, none)],
            by simp, ?_, by simp⟩
          simp [commitmentUncooperativeSet_txsOf]
      | some a =>
          refine ⟨[DBState.ClosedWaitingOnchainSettlement],
            [(tc.tx_hash, tc.block_number,
              (chain.get_header_by_number tc.block_number).timestamp,
              lastInputWitness (chain.get_transaction tc.tx_hash) tc.cells, some a)],
            by simp, ?_, by simp⟩
          simp [commitmentWaitingSet_txsOf]

/-- Folding a whole search page only ever extends the ghost log (with
commitment-stage states) and the history rows. -/
theorem pageAccFoldl_ext (chain : Chain) (net : Network) (outpoint : JsonBytes)
    (code_hash : H256) (l : List Tx) (acc : PageAcc) :
    ∃ t u, (l.foldl (processTx chain net outpoint code_hash) acc).log =
        acc.log ++ t ∧
      (l.foldl (processTx chain net outpoint code_hash) acc).csus.txsOf =
        acc.csus.txsOf ++ u ∧
      ∀ s ∈ t, s = DBState.ClosedUncooperative ∨
        s = DBState.ClosedWaitingOnchainSettlement := by
  induction l generalizing acc with
  | nil => exact ⟨[], [], by simp, by simp, by simp⟩
  | cons x xs ih =>
    obtain ⟨t1, u1, h1, h2, h3⟩ := processTx_ext chain net outpoint code_hash acc x
    obtain ⟨t2, u2, g1, g2, g3⟩ := ih (processTx chain net outpoint code_hash acc x)
    refine ⟨t1 ++ t2, u1 ++ u2, by simp [g1, h1], by simp [g2, h2], ?_⟩
    intro s hs
    rcases List.mem_append.1 hs with hs | hs
    · exact h3 s hs
    · exact g3 s hs

/-- The commitment-stage outer loop only ever extends the ghost log (with
commitment-stage states) and the history rows of its input accumulator. -/
theorem commitment_branch_ext (cfg : CodeHashConfig) (chain : Chain)
    (net : Network) (outpoint : JsonBytes) (start end_ : BlockNumber)
    (code_hash : H256) :
    ∀ (fuel : Nat) (args : JsonBytes) (ex : List H256) (vis : List JsonBytes)
      (csus : UpdateType) (log : List DBState) (r : UpdateType × List DBState),
      commitment_branch cfg chain net outpoint start end_ code_hash fuel args ex
        vis csus log = some r →
      ∃ t u, r.2 = log ++ t ∧ r.1.txsOf = csus.txsOf ++ u ∧
        ∀ s ∈ t, s = DBState.ClosedUncooperative ∨
          s = DBState.ClosedWaitingOnchainSettlement := by
  intro fuel
  induction fuel with
  | zero => intro args ex vis csus log r h; exact absurd h (by simp [commitment_branch])
  | succ fuel ih =>
    intro args ex vis csus log r h
    unfold commitment_branch at h
    by_cases hvis : vis.contains args
    · rw [if_pos hvis] at h
      obtain rfl : (csus, log) = r := by exact Option.some.inj h
      exact ⟨[], [], by simp, by simp, by simp⟩
    · rw [if_neg hvis] at h
      obtain ⟨t2, u2, g1, g2, g3⟩ := ih _ _ _ _ _ _ h
      obtain ⟨t1, u1, h1, h2, h3⟩ := pageAccFoldl_ext chain net outpoint code_hash
        (chain.get_transactions
          { script := commitment_script cfg net args, script_type := .lock,
            script_search_mode := some .exactMode,
            filter := some (SearchKeyFilter.blockRange start end_),
            with_data := some false, group_by_transaction := some true }
          .Asc 100)
        { exist_tx := ex, commitment_args := args, csus := csus, log := log }
      rw [pageFold] at g1 g2
      refine ⟨t1 ++ t2, u1 ++ u2, ?_, ?_, ?_⟩
      · rw [g1, h1]; simp
      · rw [g2, h2]; simp
      · intro s hs
        rcases List.mem_append.1 hs with hs | hs
        · exact h3 s hs
        · exact g3 s hs

/-- Witness for C1: evaluating the funding stage on the concrete oracle
yields `ClosedCooperative` with the single expected history row. -/
theorem funding_cooperative_close_witness :
    fundingStage cfgT chainC1 Network.Testnet [9] [170] 500 3 =
      some (.Update Network.Testnet [9]
        { outpoint := [9], state := .ClosedCooperative, last_commit := 777,
          last_block_number := 120, last_commitment_args := none,
          txs := [([21], 120, 777, none, none)] },
        [DBState.ClosedCooperative]) :=
  funding_cooperative_close cfgT chainC1 Network.Testnet [9] [170] 500 3
    tcSpend (Tx.Grouped { tx_hash := [20], block_number := 100, tx_index := 0, cells := [] })
    rfl rfl



/-- C2 counterexample: on a commitment-stage page whose first new transaction
has no commitment output but whose second one does, the code applies
`ClosedUncooperative` for the first transaction and then keeps processing the
page, overwriting the state (and the commitment args) with the second
transaction — so the final state of the pass is
`ClosedWaitingOnchainSettlement`, not the terminal `ClosedUncooperative` that
the claim requires once the no-commitment spend was seen. -/
theorem commitment_stop_counterexample :
    findCommitmentArgs [12] (chainC2.get_transaction [31]) = none ∧
    commitment_branch cfgT chainC2 Network.Testnet [9] 100 500 [12] 5 [187]
        [[10]] [] UpdateType.Nothing [] =
      some (.Update Network.Testnet [9]
        { outpoint := [9], state := .ClosedWaitingOnchainSettlement,
          last_commit := 888, last_block_number := 300,
          last_commitment_args := some [204],
          txs := [([31], 250, 888, none, none),
                  ([32], 300, 888, none, some [204])] },
        [DBState.ClosedUncooperative, DBState.ClosedWaitingOnchainSettlement]) ∧
    (commitment_branch cfgT chainC2 Network.Testnet [9] 100 500 [12] 5 [187]
        [[10]] [] UpdateType.Nothing []).map (fun r => r.1.currentState) ≠
      some DBState.ClosedUncooperative := by
  refine ⟨rfl, rfl, ?_⟩
  decide

/-- C2 (amended) — Commitment-stage no-commitment spend: when a new spending
transaction's outputs contain no commitment-code-hash output, the state
becomes `ClosedUncooperative`, exactly one history entry is appended, and the
current commitment args is left unchanged; the outer search loop then stops
as soon as the current commitment args has already been visited.  However,
transactions later in the same search page are still processed and may
overwrite the state and the commitment args again (see the counterexample). -/
theorem commitment_uncooperative_then_outer_stop
    (chain : Chain) (net : Network) (outpoint : JsonBytes) (code_hash : H256)
    (acc : PageAcc) (tc : TxWithCells)
    (hseen : acc.exist_tx.contains tc.tx_hash = false)
    (hno : findCommitmentArgs code_hash (chain.get_transaction tc.tx_hash) = none) :
    (processTx chain net outpoint code_hash acc (.Grouped tc) =
      { exist_tx := acc.exist_tx ++ [tc.tx_hash],
        commitment_args := acc.commitment_args,
        csus := commitmentUncooperativeSet net outpoint tc.tx_hash tc.block_number
          (chain.get_header_by_number tc.block_number).timestamp
          (lastInputWitness (chain.get_transaction tc.tx_hash) tc.cells) acc.csus,
        log := acc.log ++ [DBState.ClosedUncooperative] } ∧
      (processTx chain net outpoint code_hash acc (.Grouped tc)).csus.currentState =
        DBState.ClosedUncooperative ∧
      (processTx chain net outpoint code_hash acc (.Grouped tc)).csus.txsOf =
        acc.csus.txsOf ++ [(tc.tx_hash, tc.block_number,
          (chain.get_header_by_number tc.block_number).timestamp,
          lastInputWitness (chain.get_transaction tc.tx_hash) tc.cells, none)]) ∧
    (∀ (cfg : CodeHashConfig) (start end_ : BlockNumber) (fuel : Nat)
       (args : JsonBytes) (ex : List H256) (vis : List JsonBytes)
       (csus : UpdateType) (log : List DBState),
      vis.contains args = true →
      commitment_branch cfg chain net outpoint start end_ code_hash (fuel + 1)
        args ex vis csus log = some (csus, log)) := by
  have hstep : processTx chain net outpoint code_hash acc (.Grouped tc) =
      { exist_tx := acc.exist_tx ++ [tc.tx_hash],
        commitment_args := acc.commitment_args,
        csus := commitmentUncooperativeSet net outpoint tc.tx_hash tc.block_number
          (chain.get_header_by_number tc.block_number).timestamp
          (lastInputWitness (chain.get_transaction tc.tx_hash) tc.cells) acc.csus,
        log := acc.log ++ [DBState.ClosedUncooperative] } := by
    have hmem : tc.tx_hash ∉ acc.exist_tx := by simpa using hseen
    unfold processTx
    simp [hno, hmem]
  refine ⟨⟨hstep, ?_, ?_⟩, ?_⟩
  · rw [hstep]
    exact commitmentUncooperativeSet_currentState net outpoint tc.tx_hash
      tc.block_number (chain.get_header_by_number tc.block_number).timestamp
      (lastInputWitness (chain.get_transaction tc.tx_hash) tc.cells) acc.csus
  · rw [hstep]
    exact commitmentUncooperativeSet_txsOf net outpoint tc.tx_hash
      tc.block_number (chain.get_header_by_number tc.block_number).timestamp
      (lastInputWitness (chain.get_transaction tc.tx_hash) tc.cells) acc.csus
  · intro cfg start end_ fuel args ex vis csus log hvis
    unfold commitment_branch
    rw [if_pos hvis]

/-- Witness for the amended C2 at the concrete two-transaction page oracle:
processing `tcPageA` (whose spend has no commitment output) applies
`ClosedUncooperative` and appends one row, and the outer loop stops on an
already-visited args value. -/
theorem commitment_uncooperative_then_outer_stop_witness :
    (processTx chainC2 Network.Testnet [9] [12]
        { exist_tx := [[10]], commitment_args := [187],
          csus := UpdateType.Nothing, log := [] } (.Grouped tcPageA) =
      { exist_tx := [[10]] ++ [tcPageA.tx_hash],
        commitment_args := [187],
        csus := commitmentUncooperativeSet Network.Testnet [9] tcPageA.tx_hash
          tcPageA.block_number
          (chainC2.get_header_by_number tcPageA.block_number).timestamp
          (lastInputWitness (chainC2.get_transaction tcPageA.tx_hash)
            tcPageA.cells) UpdateType.Nothing,
        log := [] ++ [DBState.ClosedUncooperative] } ∧
      (processTx chainC2 Network.Testnet [9] [12]
        { exist_tx := [[10]], commitment_args := [187],
          csus := UpdateType.Nothing, log := [] }
          (.Grouped tcPageA)).csus.currentState = DBState.ClosedUncooperative ∧
      (processTx chainC2 Network.Testnet [9] [12]
        { exist_tx := [[10]], commitment_args := [187],
          csus := UpdateType.Nothing, log := [] }
          (.Grouped tcPageA)).csus.txsOf =
        UpdateType.Nothing.txsOf ++ [(tcPageA.tx_hash, tcPageA.block_number,
          (chainC2.get_header_by_number tcPageA.block_number).timestamp,
          lastInputWitness (chainC2.get_transaction tcPageA.tx_hash)
            tcPageA.cells, none)]) ∧
    (∀ (cfg : CodeHashConfig) (start end_ : BlockNumber) (fuel : Nat)
       (args : JsonBytes) (ex : List H256) (vis : List JsonBytes)
       (csus : UpdateType) (log : List DBState),
      vis.contains args = true →
      commitment_branch cfg chainC2 Network.Testnet [9] start end_ [12] (fuel + 1)
        args ex vis csus log = some (csus, log)) := by
  have h := commitment_uncooperative_then_outer_stop chainC2 Network.Testnet [9]
    [12]
    { exist_tx := [[10]], commitment_args := [187],
      csus := UpdateType.Nothing, log := [] }
    tcPageA (by decide) (by decide)
  exact ⟨⟨h.1.1, h.1.2.1, h.1.2.2⟩, h.2⟩

/-- The funding-stage continuation only ever extends the ghost log of its
input step with commitment-stage states. -/
theorem fundingContinue_log (cfg : CodeHashConfig) (chain : Chain)
    (net : Network) (outpoint : JsonBytes) (tip : BlockNumber) (fuel : Nat)
    (step : UpdateType × List DBState) (r : UpdateType × List DBState)
    (h : fundingContinue cfg chain net outpoint tip fuel step = some r) :
    ∃ t, r.2 = step.2 ++ t ∧
      ∀ s ∈ t, s = DBState.ClosedUncooperative ∨
        s = DBState.ClosedWaitingOnchainSettlement := by
  unfold fundingContinue at h
  by_cases hc : step.1.currentState = DBState.ClosedWaitingOnchainSettlement
  · rw [if_pos hc] at h
    cases hstep1 : step.1 with
    | Nothing => rw [hstep1] at h; exact absurd h (by simp)
    | Update n o csu =>
      rw [hstep1] at h
      cases hargs : csu.last_commitment_args with
      | none => simp only [hargs] at h; exact absurd h (by simp)
      | some args =>
        cases hlast : csu.txs.getLast? with
        | none => simp only [hargs, hlast] at h; exact absurd h (by simp)
        | some t0 =>
          simp only [hargs, hlast] at h
          obtain ⟨t, u, h1, h2, h3⟩ := commitment_branch_ext cfg chain net
            outpoint csu.last_block_number tip (commitmentCodeHash cfg net)
            fuel args [t0.1] [] (UpdateType.Update n o csu) step.2 r h
          exact ⟨t, h1, h3⟩
  · rw [if_neg hc] at h
    obtain rfl : step = r := Option.some.inj h
    exact ⟨[], by simp, by simp⟩

/-- The spend scan yields one of exactly three shapes: nothing, a cooperative
close with log `[ClosedCooperative]`, or a waiting state with log
`[ClosedWaitingOnchainSettlement]`. -/
theorem fundingSpendScan_shape (cfg : CodeHashConfig) (chain : Chain)
    (net : Network) (outpoint : JsonBytes) (txs : List Tx) :
    fundingSpendScan cfg chain net outpoint txs = (.Nothing, []) ∨
    ((fundingSpendScan cfg chain net outpoint txs).2 =
        [DBState.ClosedCooperative] ∧
      (fundingSpendScan cfg chain net outpoint txs).1.currentState =
        DBState.ClosedCooperative) ∨
    (fundingSpendScan cfg chain net outpoint txs).2 =
      [DBState.ClosedWaitingOnchainSettlement] := by
  rcases txs with _ | ⟨x, _ | ⟨y, _ | ⟨z, rest⟩⟩⟩
  · exact Or.inl rfl
  · cases x with
    | Ungrouped t => exact Or.inl rfl
    | Grouped tc => exact Or.inl rfl
  · cases x with
    | Ungrouped t => exact Or.inl rfl
    | Grouped tc =>
      unfold fundingSpendScan
      cases hfind : findCommitmentArgs (commitmentCodeHash cfg net)
          (chain.get_transaction tc.tx_hash) with
      | none =>
          refine Or.inr (Or.inl ⟨?_, ?_⟩) <;>
            simp [hfind, fundingCooperativeSet, UpdateType.currentState]
      | some a =>
          refine Or.inr (Or.inr ?_)
          simp [hfind]
  · cases x with
    | Ungrouped t => exact Or.inl rfl
    | Grouped tc => exact Or.inl rfl

/-- C5 counterexample: a funding-stage trace in which the commitment page
holds a no-commitment spend followed by a commitment-carrying spend applies
the state sequence `ClosedWaitingOnchainSettlement, ClosedUncooperative,
ClosedWaitingOnchainSettlement` — a terminal application followed by a
non-terminal one, which is not a prefix of
`Funding, ClosedWaitingOnchainSettlement*, terminal`. -/
theorem state_order_counterexample :
    fundingStage cfgT chainC5 Network.Testnet [9] [170] 500 5 =
      some (.Update Network.Testnet [9]
        { outpoint := [9], state := .ClosedWaitingOnchainSettlement,
          last_commit := 888, last_block_number := 300,
          last_commitment_args := some [204],
          txs := [([41], 100, 888, none, some [187]),
                  ([31], 250, 888, none, none),
                  ([32], 300, 888, none, some [204])] },
        [DBState.ClosedWaitingOnchainSettlement, DBState.ClosedUncooperative,
         DBState.ClosedWaitingOnchainSettlement]) ∧
    specOrdered [DBState.ClosedWaitingOnchainSettlement,
      DBState.ClosedUncooperative,
      DBState.ClosedWaitingOnchainSettlement] = false :=
  ⟨rfl, rfl⟩

/-- C5 (amended) — Applied-state ordering for a funding trace: every state a
funding-stage trace internally applies is a closed state (never `Open`), and
the first applied state is never `ClosedUncooperative` — a channel in
`Funding` always passes through `ClosedCooperative` or
`ClosedWaitingOnchainSettlement` first.  However, within one commitment-stage
page the sequence may regress from `ClosedUncooperative` back to
`ClosedWaitingOnchainSettlement` (see the counterexample), so the full
`Funding, ClosedWaitingOnchainSettlement*, terminal` prefix shape does not
hold. -/
theorem funding_trace_applied_states
    (cfg : CodeHashConfig) (chain : Chain) (net : Network)
    (outpoint funding_args : JsonBytes) (tip : BlockNumber) (fuel : Nat)
    (r : UpdateType × List DBState)
    (h : fundingStage cfg chain net outpoint funding_args tip fuel = some r) :
    (∀ s ∈ r.2, s ≠ DBState.Open) ∧
    (∀ s, r.2.head? = some s → s ≠ DBState.ClosedUncooperative) := by
  unfold fundingStage at h
  rcases fundingSpendScan_shape cfg chain net outpoint
      (chain.get_transactions
        { script := funding_script cfg net funding_args, script_type := .lock,
          script_search_mode := some .exactMode, filter := none,
          with_data := some false, group_by_transaction := some true }
        .Desc 100) with h0 | ⟨hlog, hstate⟩ | hlog
  · rw [h0] at h
    unfold fundingContinue at h
    simp only [UpdateType.currentState] at h
    rw [if_neg (by decide)] at h
    obtain rfl : (UpdateType.Nothing, ([] : List DBState)) = r :=
      Option.some.inj h
    exact ⟨by simp, by simp⟩
  · unfold fundingContinue at h
    rw [hstate, if_neg (by decide)] at h
    obtain rfl : fundingSpendScan cfg chain net outpoint
        (chain.get_transactions
          { script := funding_script cfg net funding_args, script_type := .lock,
            script_search_mode := some .exactMode, filter := none,
            with_data := some false, group_by_transaction := some true }
          .Desc 100) = r := Option.some.inj h
    rw [hlog]
    exact ⟨by simp, by simp⟩
  · obtain ⟨t, h1, h3⟩ := fundingContinue_log cfg chain net outpoint tip fuel _ r h
    rw [hlog] at h1
    constructor
    · intro s hs
      rw [h1] at hs
      rcases List.mem_append.1 hs with hs | hs
      · simp at hs; subst hs; simp
      · rcases h3 s hs with rfl | rfl <;> simp
    · intro s hs
      rw [h1] at hs
      simp at hs
      subst hs
      simp


/-- Witness for the amended C5: the concrete funding trace of the
counterexample oracle applies only closed states and does not apply
`ClosedUncooperative` first. -/
theorem funding_trace_applied_states_witness :
    (∀ s ∈ [DBState.ClosedWaitingOnchainSettlement, DBState.ClosedUncooperative,
        DBState.ClosedWaitingOnchainSettlement], s ≠ DBState.Open) ∧
    (∀ s, ([DBState.ClosedWaitingOnchainSettlement, DBState.ClosedUncooperative,
        DBState.ClosedWaitingOnchainSettlement] : List DBState).head? = some s →
      s ≠ DBState.ClosedUncooperative) :=
  funding_trace_applied_states cfgT chainC5 Network.Testnet [9] [170] 500 5
    (.Update Network.Testnet [9]
      { outpoint := [9], state := .ClosedWaitingOnchainSettlement,
        last_commit := 888, last_block_number := 300,
        last_commitment_args := some [204],
        txs := [([41], 100, 888, none, some [187]),
                ([31], 250, 888, none, none),
                ([32], 300, 888, none, some [204])] },
      [DBState.ClosedWaitingOnchainSettlement, DBState.ClosedUncooperative,
       DBState.ClosedWaitingOnchainSettlement]) rfl

/-- A duplicate-free list contained in another list is no longer than it. -/
theorem nodupSubsetLength {α : Type} [DecidableEq α] {l S : List α}
    (hd : l.Nodup) (hs : l ⊆ S) : l.length ≤ S.length :=
  calc l.length = l.toFinset.card := (List.toFinset_card_of_nodup hd).symm
  _ ≤ S.toFinset.card := Finset.card_le_card (fun x hx => by
      rw [List.mem_toFinset] at hx ⊢; exact hs hx)
  _ ≤ S.length := S.toFinset_card_le

/-- Fuel bound for the commitment-stage loop: if every commitment args value
reachable through one page step stays inside a finite set `S`, the loop
completes before exhausting `S.length + 1` iterations, because every
non-breaking iteration moves a fresh element of `S` into the visited list. -/
theorem commitment_branch_fuel_bound (cfg : CodeHashConfig) (chain : Chain)
    (net : Network) (outpoint : JsonBytes) (start end_ : BlockNumber)
    (code_hash : H256) (S : List JsonBytes)
    (hclosed : ∀ a ex cs lg, a ∈ S →
      (pageFold cfg chain net outpoint code_hash start end_ a ex cs lg).commitment_args ∈ S) :
    ∀ (fuel : Nat) (args : JsonBytes) (ex : List H256) (vis : List JsonBytes)
      (csus : UpdateType) (log : List DBState),
      args ∈ S → vis.Nodup → vis ⊆ S → S.length + 1 ≤ fuel + vis.length →
      (commitment_branch cfg chain net outpoint start end_ code_hash fuel args
        ex vis csus log).isSome := by
  intro fuel
  induction fuel with
  | zero =>
    intro args ex vis csus log hargs hnd hsub hfuel
    exact absurd (nodupSubsetLength hnd hsub) (by omega)
  | succ fuel ih =>
    intro args ex vis csus log hargs hnd hsub hfuel
    unfold commitment_branch
    by_cases hvis : vis.contains args
    · rw [if_pos hvis]; rfl
    · rw [if_neg hvis]
      have hargsvis : args ∉ vis := by simpa using hvis
      have hnd2 : (vis ++ [args]).Nodup := by
        simp [List.nodup_append, hnd, hargsvis]
      have hsub2 : vis ++ [args] ⊆ S := by
        intro x hx
        rcases List.mem_append.1 hx with hx | hx
        · exact hsub hx
        · simp at hx; subst hx; exact hargs
      have hlen : vis.length < S.length := by
        have := nodupSubsetLength hnd2 hsub2
        simp at this; omega
      exact ih _ _ _ _ _ (hclosed args ex csus log hargs) hnd2 hsub2
        (by simp; omega)

/-- C4 — Cycle termination: if the set of commitment args values the indexer
can hand back along the current trace is contained in a finite set `S` (in
particular whenever the chain revisits an already-visited args value), the
commitment-stage outer loop breaks within `S.length + 1` iterations: each
iteration either breaks on a previously visited args value or adds a fresh
args value to the visited set, so `S.length + 1` units of fuel are never
exhausted. -/
theorem commitment_cycle_termination (cfg : CodeHashConfig) (chain : Chain)
    (net : Network) (outpoint : JsonBytes) (start end_ : BlockNumber)
    (code_hash : H256) (S : List JsonBytes) (args : JsonBytes) (tx_hash : H256)
    (csus : UpdateType) (log : List DBState)
    (hargs : args ∈ S)
    (hclosed : ∀ a ex cs lg, a ∈ S →
      (pageFold cfg chain net outpoint code_hash start end_ a ex cs lg).commitment_args ∈ S) :
    (commitment_branch cfg chain net outpoint start end_ code_hash
      (S.length + 1) args [tx_hash] [] csus log).isSome :=
  commitment_branch_fuel_bound cfg chain net outpoint start end_ code_hash S
    hclosed (S.length + 1) args [tx_hash] [] csus log hargs (by simp) (by simp)
    (by simp)

/-- Witness for C4: on the quiet oracle every page is empty, so with
`S = [[5]]` the loop visits `[5]`, re-reaches it, and breaks with fuel 2. -/
theorem commitment_cycle_termination_witness :
    (commitment_branch cfgT chainQuiet Network.Testnet [9] 100 500 [12] 2 [5]
      [[10]] [] UpdateType.Nothing []).isSome :=
  commitment_cycle_termination cfgT chainQuiet Network.Testnet [9] 100 500 [12]
    [[5]] [5] [10] UpdateType.Nothing [] (by decide)
    (fun a ex cs lg ha => by
      simpa [pageFold, chainQuiet] using ha)


/-- C7 counterexample: the genesis-trace insert (`ChannelGroup::txs_sql`) has
no row cap, so a single group with 10923 history entries binds
6 x 10923 = 65538 parameters, exceeding the 65535 bound the claim asserts for
both insert paths. -/
theorem row_batch_cap_counterexample :
    ¬ (6 * (ChannelGroup.txsRows [bigGroup]).length ≤ 65535) := by
  have hlen : (ChannelGroup.txsRows [bigGroup]).length = 10923 := by
    rw [ChannelGroup.txsRows, List.flatMap_cons, List.flatMap_nil,
        List.append_nil, List.length_map]
    show (List.replicate 10923 (([0], 0, 0, none, none) : TxRecord)).length = 10923
    exact List.length_replicate 10923 _
  rw [hlen]
  omega

/-- C7 (amended) — Row batch cap: the per-pass history insert
(`ChannelStateUpdate::txs_sql`) caps its batch at `65535 / 6` rows, so its
rows x 6 bound parameters never exceed 65535; the genesis-trace insert
(`ChannelGroup::txs_sql`) applies no cap and binds one row per history entry
of every group, however many there are. -/
theorem row_batch_cap_amended :
    (∀ updates : List ChannelStateUpdate,
      6 * (ChannelStateUpdate.txsRows updates).length ≤ 65535) ∧
    (∀ groups : List ChannelGroup,
      (ChannelGroup.txsRows groups).length =
        (groups.map fun g => g.txs.length).sum) := by
  constructor
  · intro updates
    have h : (ChannelStateUpdate.txsRows updates).length ≤ 65535 / 6 := by
      rw [ChannelStateUpdate.txsRows]
      exact List.length_take_le _ _
    omega
  · intro groups
    induction groups with
    | nil => simp [ChannelGroup.txsRows]
    | cons g gs ih =>
      simp [ChannelGroup.txsRows] at ih ⊢
      omega


/-- The cooperative funding setter preserves the outpoint discipline. -/
theorem fundingCooperativeSet_forOutpoint (net : Network) (op : JsonBytes)
    (txh : H256) (bn : BlockNumber) (ts : Nat) (csus : UpdateType)
    (h : csus.forOutpoint op) :
    (fundingCooperativeSet net op txh bn ts csus).forOutpoint op := by
  cases csus with
  | Nothing => exact ⟨rfl, rfl⟩
  | Update n0 o0 s => exact h

/-- The waiting funding setter preserves the outpoint discipline. -/
theorem fundingWaitingSet_forOutpoint (net : Network) (op : JsonBytes)
    (txh : H256) (bn : BlockNumber) (ts : Nat) (args : JsonBytes)
    (csus : UpdateType) (h : csus.forOutpoint op) :
    (fundingWaitingSet net op txh bn ts args csus).forOutpoint op := by
  cases csus with
  | Nothing => exact ⟨rfl, rfl⟩
  | Update n0 o0 s => exact h

/-- The uncooperative commitment setter preserves the outpoint discipline. -/
theorem commitmentUncooperativeSet_forOutpoint (net : Network) (op : JsonBytes)
    (txh : H256) (bn : BlockNumber) (ts : Nat) (w : Option JsonBytes)
    (csus : UpdateType) (h : csus.forOutpoint op) :
    (commitmentUncooperativeSet net op txh bn ts w csus).forOutpoint op := by
  cases csus with
  | Nothing => exact ⟨rfl, rfl⟩
  | Update n0 o0 s => exact h

/-- The waiting commitment setter preserves the outpoint discipline. -/
theorem commitmentWaitingSet_forOutpoint (net : Network) (op : JsonBytes)
    (txh : H256) (bn : BlockNumber) (ts : Nat) (w : Option JsonBytes)
    (args : JsonBytes) (csus : UpdateType) (h : csus.forOutpoint op) :
    (commitmentWaitingSet net op txh bn ts w args csus).forOutpoint op := by
  cases csus with
  | Nothing => exact ⟨rfl, rfl⟩
  | Update n0 o0 s => exact h

/-- Page-entry processing preserves the outpoint discipline. -/
theorem processTx_forOutpoint (chain : Chain) (net : Network) (op : JsonBytes)
    (code_hash : H256) (acc : PageAcc) (tx : Tx)
    (h : acc.csus.forOutpoint op) :
    (processTx chain net op code_hash acc tx).csus.forOutpoint op := by
  cases tx with
  | Ungrouped t => exact h
  | Grouped tc =>
    unfold processTx
    by_cases hmem : tc.tx_hash ∈ acc.exist_tx
    · have hc : acc.exist_tx.contains tc.tx_hash = true := by simpa using hmem
      simp only [hc, if_true]
      exact h
    · have hc : acc.exist_tx.contains tc.tx_hash = false := by simpa using hmem
      cases hfind : findCommitmentArgs code_hash (chain.get_transaction tc.tx_hash) with
      | none =>
          simp only [hc, Bool.false_eq_true, if_false, hfind]
          exact commitmentUncooperativeSet_forOutpoint net op tc.tx_hash
            tc.block_number (chain.get_header_by_number tc.block_number).timestamp
            (lastInputWitness (chain.get_transaction tc.tx_hash) tc.cells) acc.csus h
      | some a =>
          simp only [hc, Bool.false_eq_true, if_false, hfind]
          exact commitmentWaitingSet_forOutpoint net op tc.tx_hash
            tc.block_number (chain.get_header_by_number tc.block_number).timestamp
            (lastInputWitness (chain.get_transaction tc.tx_hash) tc.cells) a acc.csus h

/-- Page folding preserves the outpoint discipline. -/
theorem pageAccFoldl_forOutpoint (chain : Chain) (net : Network)
    (op : JsonBytes) (code_hash : H256) (l : List Tx) (acc : PageAcc)
    (h : acc.csus.forOutpoint op) :
    (l.foldl (processTx chain net op code_hash) acc).csus.forOutpoint op := by
  induction l generalizing acc with
  | nil => exact h
  | cons x xs ih => exact ih _ (processTx_forOutpoint chain net op code_hash acc x h)

/-- The commitment-stage loop preserves the outpoint discipline. -/
theorem commitment_branch_forOutpoint (cfg : CodeHashConfig) (chain : Chain)
    (net : Network) (op : JsonBytes) (start end_ : BlockNumber)
    (code_hash : H256) :
    ∀ (fuel : Nat) (args : JsonBytes) (ex : List H256) (vis : List JsonBytes)
      (csus : UpdateType) (log : List DBState) (r : UpdateType × List DBState),
      csus.forOutpoint op →
      commitment_branch cfg chain net op start end_ code_hash fuel args ex vis
        csus log = some r →
      r.1.forOutpoint op := by
  intro fuel
  induction fuel with
  | zero => intro args ex vis csus log r hfo h; exact absurd h (by simp [commitment_branch])
  | succ fuel ih =>
    intro args ex vis csus log r hfo h
    unfold commitment_branch at h
    by_cases hvis : vis.contains args
    · rw [if_pos hvis] at h
      obtain rfl : (csus, log) = r := Option.some.inj h
      exact hfo
    · rw [if_neg hvis] at h
      exact ih _ _ _ _ _ _
        (pageAccFoldl_forOutpoint chain net op code_hash
          (chain.get_transactions
            { script := commitment_script cfg net args, script_type := .lock,
              script_search_mode := some .exactMode,
              filter := some (SearchKeyFilter.blockRange start end_),
              with_data := some false, group_by_transaction := some true }
            .Asc 100)
          { exist_tx := ex, commitment_args := args, csus := csus, log := log }
          hfo) h

/-- The funding spend scan produces an update for its own outpoint. -/
theorem fundingSpendScan_forOutpoint (cfg : CodeHashConfig) (chain : Chain)
    (net : Network) (op : JsonBytes) (txs : List Tx) :
    (fundingSpendScan cfg chain net op txs).1.forOutpoint op := by
  rcases txs with _ | ⟨x, _ | ⟨y, _ | ⟨z, rest⟩⟩⟩
  · exact trivial
  · cases x with
    | Ungrouped t => exact trivial
    | Grouped tc => exact trivial
  · cases x with
    | Ungrouped t => exact trivial
    | Grouped tc =>
      unfold fundingSpendScan
      cases hfind : findCommitmentArgs (commitmentCodeHash cfg net)
          (chain.get_transaction tc.tx_hash) with
      | none =>
          simp only [hfind]
          exact fundingCooperativeSet_forOutpoint net op tc.tx_hash
            tc.block_number
            (chain.get_header_by_number tc.block_number).timestamp
            UpdateType.Nothing trivial
      | some a =>
          simp only [hfind]
          exact fundingWaitingSet_forOutpoint net op tc.tx_hash tc.block_number
            (chain.get_header_by_number tc.block_number).timestamp a
            UpdateType.Nothing trivial
  · cases x with
    | Ungrouped t => exact trivial
    | Grouped tc => exact trivial

/-- A completed funding-stage trace produces an update for its own outpoint. -/
theorem fundingStage_forOutpoint (cfg : CodeHashConfig) (chain : Chain)
    (net : Network) (op : JsonBytes) (funding_args : JsonBytes)
    (tip : BlockNumber) (fuel : Nat) (r : UpdateType × List DBState)
    (h : fundingStage cfg chain net op funding_args tip fuel = some r) :
    r.1.forOutpoint op := by
  unfold fundingStage at h
  have hscan := fundingSpendScan_forOutpoint cfg chain net op
    (chain.get_transactions
      { script := funding_script cfg net funding_args, script_type := .lock,
        script_search_mode := some .exactMode, filter := none,
        with_data := some false, group_by_transaction := some true }
      .Desc 100)
  unfold fundingContinue at h
  by_cases hc : (fundingSpendScan cfg chain net op
      (chain.get_transactions
        { script := funding_script cfg net funding_args, script_type := .lock,
          script_search_mode := some .exactMode, filter := none,
          with_data := some false, group_by_transaction := some true }
        .Desc 100)).1.currentState = DBState.ClosedWaitingOnchainSettlement
  · rw [if_pos hc] at h
    cases hstep : (fundingSpendScan cfg chain net op
        (chain.get_transactions
          { script := funding_script cfg net funding_args, script_type := .lock,
            script_search_mode := some .exactMode, filter := none,
            with_data := some false, group_by_transaction := some true }
          .Desc 100)).1 with
    | Nothing => rw [hstep] at h; exact absurd h (by simp)
    | Update n o csu =>
      rw [hstep] at h
      rw [hstep] at hscan
      cases hargs : csu.last_commitment_args with
      | none => simp only [hargs] at h; exact absurd h (by simp)
      | some args =>
        cases hlast : csu.txs.getLast? with
        | none => simp only [hargs, hlast] at h; exact absurd h (by simp)
        | some t0 =>
          simp only [hargs, hlast] at h
          exact commitment_branch_forOutpoint cfg chain net op
            csu.last_block_number tip (commitmentCodeHash cfg net) fuel args
            [t0.1] [] (UpdateType.Update n o csu) _ r hscan h
  · rw [if_neg hc] at h
    obtain rfl := Option.some.inj h
    exact hscan

/-- A completed tracing task produces an update for its own outpoint. -/
theorem channelTask_forOutpoint (cfg : CodeHashConfig) (chain : Chain)
    (mt tt : BlockNumber) (fuel : Nat) (op : JsonBytes) (cs : ChannelState)
    (ut : UpdateType) (log : List DBState)
    (h : channelTask cfg chain mt tt fuel op cs = some (ut, log)) :
    ut.forOutpoint op := by
  unfold channelTask at h
  revert h
  cases cs.state with
  | ClosedCooperative =>
      intro h
      have h2 := Option.some.inj h
      injection h2 with ha hb
      subst ha
      exact trivial
  | ClosedUncooperative =>
      intro h
      have h2 := Option.some.inj h
      injection h2 with ha hb
      subst ha
      exact trivial
  | Funding a b fargs =>
      intro h
      exact fundingStage_forOutpoint cfg chain cs.net op fargs _ fuel (ut, log) h
  | ClosedWaitingOnchainSettlement txh bn cargs =>
      intro h
      exact commitment_branch_forOutpoint cfg chain cs.net op bn _
        (commitmentCodeHash cfg cs.net) fuel cargs [txh] [] .Nothing [] (ut, log)
        trivial h


/-- Every update a pass collects carries the outpoint of one of the spawned
channels, and its update record's outpoint equals its tag. -/
theorem runTasks_outpoints (cfg : CodeHashConfig) (chain : Chain)
    (mt tt : BlockNumber) (fuel : Nat) :
    ∀ (chs : List (JsonBytes × ChannelState))
      (ups : List (Network × JsonBytes × ChannelStateUpdate)),
      runTasks cfg chain mt tt fuel chs = some ups →
      ∀ u ∈ ups, u.2.1 ∈ chs.map Prod.fst ∧ u.2.2.outpoint = u.2.1 := by
  intro chs
  induction chs with
  | nil =>
    intro ups h u hu
    obtain rfl : ([] : List (Network × JsonBytes × ChannelStateUpdate)) = ups :=
      Option.some.inj h
    simp at hu
  | cons p rest ih =>
    intro ups h u hu
    unfold runTasks at h
    cases htask : channelTask cfg chain mt tt fuel p.1 p.2 with
    | none => rw [htask] at h; exact absurd h (by simp)
    | some utlog =>
      rw [htask] at h
      obtain ⟨ut, lg⟩ := utlog
      have hfo : ut.forOutpoint p.1 :=
        channelTask_forOutpoint cfg chain mt tt fuel p.1 p.2 ut lg htask
      cases hrest : runTasks cfg chain mt tt fuel rest with
      | none => rw [hrest] at h; cases ut <;> exact absurd h (by simp)
      | some tail =>
        rw [hrest] at h
        cases ut with
        | Nothing =>
          simp only [Option.bind_eq_bind, Option.some_bind] at h
          obtain rfl : tail = ups := Option.some.inj h
          obtain ⟨h1, h2⟩ := ih tail hrest u hu
          exact ⟨by simp [List.mem_cons]; right; simpa using h1, h2⟩
        | Update n o csu =>
          simp only [Option.bind_eq_bind, Option.some_bind] at h
          obtain rfl : (n, o, csu) :: tail = ups := Option.some.inj h
          rcases List.mem_cons.1 hu with rfl | hu2
          · obtain ⟨ho, hcsu⟩ := hfo
            refine ⟨?_, ?_⟩
            · simp only [List.map_cons, List.mem_cons]
              exact Or.inl ho
            · rw [hcsu, ho]
          · obtain ⟨h1, h2⟩ := ih tail hrest u hu2
            exact ⟨by simp [List.mem_cons]; right; simpa using h1, h2⟩

/-- Applying a pass's updates leaves untouched every store entry whose
outpoint occurs in none of the updates. -/
theorem applyUpdates_untouched :
    ∀ (ups : List (Network × JsonBytes × ChannelStateUpdate))
      (chs chs' : List (JsonBytes × ChannelState)) (op : JsonBytes)
      (st : ChannelState),
      applyUpdates chs ups = some chs' →
      (∀ u ∈ ups, u.2.1 ≠ op) → (op, st) ∈ chs → (op, st) ∈ chs' := by
  intro ups
  induction ups with
  | nil =>
    intro chs chs' op st h hne hmem
    obtain rfl : chs = chs' := Option.some.inj h
    exact hmem
  | cons u rest ih =>
    intro chs chs' op st h hne hmem
    obtain ⟨n, o, csu⟩ := u
    unfold applyUpdates at h
    cases hst : stateOfUpdate csu with
    | none => rw [hst] at h; exact absurd h (by simp)
    | some s2 =>
      rw [hst] at h
      simp only [Option.bind_eq_bind, Option.some_bind] at h
      by_cases hany : chs.any (fun p => p.1 = o)
      · rw [if_pos hany] at h
        have hop : o ≠ op := by
          have := hne (n, o, csu) (List.mem_cons_self _ _)
          simpa using this
        refine ih _ _ _ _ h (fun v hv => hne v (List.mem_cons_of_mem _ hv)) ?_
        have hmap := List.mem_map_of_mem
          (f := fun p : JsonBytes × ChannelState =>
            if p.1 = o then (p.1, { p.2 with state := s2 }) else p) hmem
        simpa [hop.symm] using hmap
      · rw [if_neg hany] at h
        exact absurd h (by simp)

/-- In a store with duplicate-free keys, two bindings of the same outpoint
are equal. -/
theorem keyUnique {l : List (JsonBytes × ChannelState)}
    (h : (l.map Prod.fst).Nodup) {a : JsonBytes} {b c : ChannelState}
    (hb : (a, b) ∈ l) (hc : (a, c) ∈ l) : b = c := by
  induction l with
  | nil => simp at hb
  | cons p rest ih =>
    rw [List.map_cons, List.nodup_cons] at h
    obtain ⟨h1, h2⟩ := h
    rcases List.mem_cons.1 hb with rfl | hb2
    · rcases List.mem_cons.1 hc with hc1 | hc2
      · exact (congrArg Prod.snd hc1).symm
      · exact absurd (List.mem_map_of_mem Prod.fst hc2) h1
    · rcases List.mem_cons.1 hc with rfl | hc2
      · exact absurd (List.mem_map_of_mem Prod.fst hb2) h1
      · exact ih h2 hb2 hc2

/-- A channel stored in a terminal state is skipped before any task (and
hence any RPC call) is issued for it. -/
theorem terminal_not_eligible {chs : List (JsonBytes × ChannelState)}
    {op : JsonBytes} {cs : ChannelState}
    (hmem : (op, cs) ∈ chs)
    (hterm : cs.state = State.ClosedCooperative ∨
      cs.state = State.ClosedUncooperative)
    (hkeys : (chs.map Prod.fst).Nodup) :
    op ∉ (eligibleChannels chs).map Prod.fst := by
  intro hop
  obtain ⟨q, hq, hq1⟩ := List.mem_map.1 hop
  have hqchs : q ∈ chs := List.mem_of_mem_filter hq
  have hfilter := List.of_mem_filter hq
  obtain ⟨q1, q2⟩ := q
  obtain rfl : q1 = op := hq1
  have hq2 : q2 = cs := keyUnique hkeys hqchs hmem
  subst hq2
  rcases hterm with hs | hs <;> rw [hs] at hfilter <;> simp at hfilter

/-- C3 — Terminal idempotence: a channel whose stored state is
`ClosedCooperative` or `ClosedUncooperative` is skipped by the periodic
re-trace (it is excluded from the spawned task list, so no RPC is issued for
it — tasks are the only place the oracle is consulted), no collected update
carries its outpoint (so no history row is derived for it), and its
in-memory entry survives the pass unchanged. -/
theorem terminal_idempotence (cfg : CodeHashConfig) (chain : Chain)
    (mt tt : BlockNumber) (fuel : Nat)
    (chs : List (JsonBytes × ChannelState)) (db : Db)
    (sf : PgStmt → Bool) (cf : Bool) (op : JsonBytes) (cs : ChannelState)
    (hmem : (op, cs) ∈ chs)
    (hterm : cs.state = State.ClosedCooperative ∨
      cs.state = State.ClosedUncooperative)
    (hkeys : (chs.map Prod.fst).Nodup) :
    op ∉ (eligibleChannels chs).map Prod.fst ∧
    ∀ chs' ups res,
      channel_tx_update cfg chain mt tt fuel chs db sf cf =
        some (chs', ups, res) →
      (∀ u ∈ ups, u.2.1 ≠ op ∧ u.2.2.outpoint ≠ op) ∧ (op, cs) ∈ chs' := by
  have hne := terminal_not_eligible hmem hterm hkeys
  refine ⟨hne, ?_⟩
  intro chs' ups res h
  unfold channel_tx_update at h
  cases hruns : runTasks cfg chain mt tt fuel (eligibleChannels chs) with
  | none => rw [hruns] at h; exact absurd h (by simp)
  | some ups0 =>
    rw [hruns] at h
    simp only [Option.bind_eq_bind, Option.some_bind] at h
    cases happ : applyUpdates chs ups0 with
    | none => rw [happ] at h; exact absurd h (by simp)
    | some chs0 =>
      rw [happ] at h
      simp only [Option.bind_eq_bind, Option.some_bind] at h
      have h2 := Option.some.inj h
      injection h2 with ha hb
      injection hb with hb1 hb2
      subst ha
      subst hb1
      have hout := runTasks_outpoints cfg chain mt tt fuel
        (eligibleChannels chs) ups0 hruns
      have hneq : ∀ u ∈ ups0, u.2.1 ≠ op ∧ u.2.2.outpoint ≠ op := by
        intro u hu
        obtain ⟨h1, h2⟩ := hout u hu
        constructor
        · intro hx; rw [hx] at h1; exact hne h1
        · intro hx; rw [← h2, hx] at h1; exact hne h1
      refine ⟨hneq, ?_⟩
      exact applyUpdates_untouched ups0 chs chs0 op cs happ
        (fun u hu => (hneq u hu).1) hmem

/-- Witness for C3: a one-channel store already closed cooperatively — the
channel is not eligible, the pass completes with no updates, and the entry
survives. -/
theorem terminal_idempotence_witness :
    (([9] : JsonBytes) ∉ (eligibleChannels chsC3).map Prod.fst) ∧
    ((∀ u ∈ ([] : List (Network × JsonBytes × ChannelStateUpdate)),
        u.2.1 ≠ ([9] : JsonBytes) ∧ u.2.2.outpoint ≠ [9]) ∧
      (([9],
        ({ net := Network.Testnet, state := State.ClosedCooperative } :
          ChannelState)) ∈ chsC3)) := by
  have h := terminal_idempotence cfgT chainQuiet 0 0 1 chsC3 dbE
    (fun _ => false) false [9]
    { net := Network.Testnet, state := State.ClosedCooperative }
    (by simp [chsC3]) (Or.inl rfl) (by simp [chsC3])
  exact ⟨h.1, h.2 chsC3 [] (.ok dbE) rfl⟩

/-- C8 — Persistence atomicity per pass: with a non-empty change set all four
statement groups (channel-state UPDATEs and history INSERTs, both networks)
run inside the single pass transaction; if any statement or the commit fails
the persistence outcome is the loud error (the source `unwrap()` panics) and
no durable state is produced, and if nothing fails the whole statement list
is applied at commit; the in-memory store and the collected updates of
`channel_tx_update` do not depend on the persistence failure behaviour, so a
failed persistence never reverts the already-applied in-memory states. -/
theorem persistence_atomicity (db : Db) (sf : PgStmt → Bool) (cf : Bool)
    (m t : List ChannelStateUpdate)
    (hne : ¬(m.isEmpty = true ∧ t.isEmpty = true)) :
    (((passStmts m t).any sf = true ∨ cf = true) →
      persistPass db sf cf m t = .error ()) ∧
    (((passStmts m t).any sf = false ∧ cf = false) →
      persistPass db sf cf m t = .ok ((passStmts m t).foldl applyStmt db)) ∧
    (∀ (cfg : CodeHashConfig) (chain : Chain) (mt tt : BlockNumber)
       (fuel : Nat) (chs : List (JsonBytes × ChannelState))
       (sf2 : PgStmt → Bool) (cf2 : Bool),
      (channel_tx_update cfg chain mt tt fuel chs db sf cf).map
          (fun x => (x.1, x.2.1)) =
        (channel_tx_update cfg chain mt tt fuel chs db sf2 cf2).map
          (fun x => (x.1, x.2.1))) := by
  have hcond : (m.isEmpty && t.isEmpty) = false := by
    cases hm : m.isEmpty <;> cases ht : t.isEmpty <;> simp_all
  refine ⟨?_, ?_, ?_⟩
  · intro hf
    unfold persistPass
    rw [hcond]
    simp only [Bool.false_eq_true, if_false]
    unfold runPgTransaction
    rcases hf with hf | hf
    · rw [if_pos hf]
    · by_cases h1 : (passStmts m t).any sf = true
      · rw [if_pos h1]
      · rw [if_neg h1, if_pos hf]
  · intro hf
    obtain ⟨hf1, hf2⟩ := hf
    unfold persistPass
    rw [hcond]
    simp only [Bool.false_eq_true, if_false]
    unfold runPgTransaction
    rw [if_neg (by simp [hf1]), if_neg (by simp [hf2])]
  · intro cfg chain mt tt fuel chs sf2 cf2
    unfold channel_tx_update
    cases hruns : runTasks cfg chain mt tt fuel (eligibleChannels chs) with
    | none => rfl
    | some ups =>
      simp only [Option.bind_eq_bind, Option.some_bind]
      cases happ : applyUpdates chs ups with
      | none => rfl
      | some chs2 =>
        simp only [Option.bind_eq_bind, Option.some_bind]
        rfl

/-- Witness for C8: a failing statement oracle, a one-update mainnet change
set — the pass persistence fails loudly. -/
theorem persistence_atomicity_witness :
    persistPass dbE (fun _ => true) false [csuW] [] = .error () :=
  (persistence_atomicity dbE (fun _ => true) false [csuW] [] (by decide)).1
    (Or.inl (by decide))

/-- One statement never removes a history row: `state_sql` leaves the history
table alone and `txs_sql` only appends. -/
theorem applyStmt_history (db : Db) (s : PgStmt) :
    ∃ rows, (applyStmt db s).historyRows = db.historyRows ++ rows := by
  cases s with
  | stateSql net us => exact ⟨[], by simp [applyStmt]⟩
  | txsSql net us => exact ⟨_, rfl⟩

/-- A whole statement list never removes a history row. -/
theorem foldlStmts_history (stmts : List PgStmt) :
    ∀ db : Db,
      ∃ rows, (stmts.foldl applyStmt db).historyRows = db.historyRows ++ rows := by
  induction stmts with
  | nil => intro db; exact ⟨[], by simp⟩
  | cons s rest ih =>
    intro db
    obtain ⟨r1, h1⟩ := applyStmt_history db s
    obtain ⟨r2, h2⟩ := ih (applyStmt db s)
    exact ⟨r1 ++ r2, by rw [List.foldl_cons, h2, h1, List.append_assoc]⟩

/-- C9 — History append-only: a trace only ever extends the history rows
carried by the in-flight update (the commitment-stage loop returns a `txs`
list that extends its input), and a committed pass transaction only ever
extends the durable history table — the rows after a pass are a superset of
the rows before it, and no row is mutated or removed. -/
theorem history_append_only :
    (∀ (cfg : CodeHashConfig) (chain : Chain) (net : Network)
       (outpoint : JsonBytes) (start end_ : BlockNumber) (code_hash : H256)
       (fuel : Nat) (args : JsonBytes) (ex : List H256) (vis : List JsonBytes)
       (csus : UpdateType) (log : List DBState) (r : UpdateType × List DBState),
      commitment_branch cfg chain net outpoint start end_ code_hash fuel args
        ex vis csus log = some r →
      ∃ u, r.1.txsOf = csus.txsOf ++ u) ∧
    (∀ (db : Db) (sf : PgStmt → Bool) (cf : Bool) (stmts : List PgStmt)
       (db2 : Db),
      runPgTransaction db sf cf stmts = .ok db2 →
      ∃ rows, db2.historyRows = db.historyRows ++ rows) := by
  constructor
  · intro cfg chain net outpoint start end_ code_hash fuel args ex vis csus
      log r h
    obtain ⟨t, u, h1, h2, h3⟩ := commitment_branch_ext cfg chain net outpoint
      start end_ code_hash fuel args ex vis csus log r h
    exact ⟨u, h2⟩
  · intro db sf cf stmts db2 h
    unfold runPgTransaction at h
    by_cases h1 : stmts.any sf = true
    · rw [if_pos h1] at h; exact absurd h (by simp)
    · rw [if_neg h1] at h
      by_cases h2 : cf = true
      · rw [if_pos h2] at h; exact absurd h (by simp)
      · rw [if_neg h2] at h
        obtain rfl : stmts.foldl applyStmt db = db2 := Except.ok.inj h
        exact foldlStmts_history stmts db

/-- Witness for C9: the no-spend commitment run extends nothing, and a
one-insert transaction extends the empty history table. -/
theorem history_append_only_witness :
    (∃ u, (UpdateType.Nothing, ([] : List DBState)).1.txsOf =
      UpdateType.Nothing.txsOf ++ u) ∧
    (∃ rows, (([PgStmt.txsSql Network.Testnet [csuW]].foldl applyStmt
        dbE)).historyRows = dbE.historyRows ++ rows) := by
  constructor
  · exact history_append_only.1 cfgT chainQuiet Network.Testnet [9] 100 500
      [12] 2 [5] [[10]] [] UpdateType.Nothing [] (UpdateType.Nothing, []) rfl
  · exact history_append_only.2 dbE (fun _ => false) false
      [PgStmt.txsSql Network.Testnet [csuW]]
      ([PgStmt.txsSql Network.Testnet [csuW]].foldl applyStmt dbE) rfl

end FiberDashboard
